import Mathlib

/-!
Shallow embedding of `pickle_queue/queue.py` (class `Queue`).

The persisted pickle file is modelled by `Blob`: it is either absent
(`open` raises `FileNotFoundError`), present but empty/truncated so that
`pickle.load` raises `EOFError`, present with undecodable garbage so that
`pickle.load` raises a different exception (`pickle.UnpicklingError`), or
present with a well-formed pickled list of items.

Every public operation in the source acquires a `FileLock` first; lock
acquisition either succeeds or raises `Timeout` (re-raised as
`TimeoutError`).  We model the acquisition outcome as a boolean argument
`acquired`; when it is `false` the operation returns the lock-timeout
error and the blob is untouched, which is exactly what the source does
since the `FileLock` context manager raises before any body code runs.

Each operation returns the pair of the Python-level outcome (normal
return value or raised exception kind) and the blob state after the call.
-/

set_option autoImplicit false

deriving instance DecidableEq for Except

namespace PickleQueue

variable {α : Type}

/-- Persisted state of the queue file. -/
inductive Blob (α : Type) where
  /-- The file does not exist: `open` raises `FileNotFoundError`. -/
  | missing : Blob α
  /-- The file exists but is empty/truncated: `pickle.load` raises `EOFError`. -/
  | truncated : Blob α
  /-- The file exists with undecodable content: `pickle.load` raises an
  exception other than `FileNotFoundError`/`EOFError` (e.g. `pickle.UnpicklingError`). -/
  | garbage : Blob α
  /-- The file holds a well-formed pickled list of items. -/
  | data : List α → Blob α
deriving DecidableEq, Repr

/-- The exception raised by `open` + `pickle.load` on each blob state. -/
inductive ReadError where
  | fileNotFound : ReadError
  | eofError : ReadError
  | unpicklingError : ReadError
deriving DecidableEq, Repr

/-- Result of `pickle.load(open(queue_file, 'rb'))` on each blob state. -/
def pickleLoad : Blob α → Except ReadError (List α)
  | .missing => .error .fileNotFound
  | .truncated => .error .eofError
  | .garbage => .error .unpicklingError
  | .data xs => .ok xs

/-- The distinct kinds of exceptions a `Queue` operation can raise:
`TimeoutError`, `EmptyQueueError`, `IndexError`, `FileNotFoundError` from
`unlink`, and an uncaught decode exception propagating out of `_load_queue`. -/
inductive QueueError where
  | lockTimeout : QueueError
  | emptyQueue : QueueError
  | indexOutOfRange : QueueError
  | resourceRemovalFailure : QueueError
  | decodeError : QueueError
deriving DecidableEq, Repr

/-- `Queue._load_queue`: read and unpickle the file, turning
`FileNotFoundError` and `EOFError` (and only those) into an empty list. -/
def load_queue (b : Blob α) : Except QueueError (List α) :=
  match pickleLoad b with
  | .ok xs => .ok xs
  | .error .fileNotFound => .ok []
  | .error .eofError => .ok []
  | .error .unpicklingError => .error .decodeError

/-- `Queue._save_queue`: overwrite the file with the pickled list. -/
def save_queue (queue_data : List α) : Blob α :=
  Blob.data queue_data

/-- `queue_file.exists()`. -/
def file_exists : Blob α → Bool
  | .missing => false
  | _ => true

/-- `Queue._create_queue`, run by the constructor.  `outer` is the blob
state at the unlocked `exists()` check; `inner` is the blob state once the
lock is held (another process may have created the file in between); the
result is the blob state when construction finishes. -/
def create_queue (outer inner : Blob α) : Blob α :=
  if file_exists outer then inner
  else if file_exists inner then inner
  else save_queue []

/-- `Queue.put`: load, `queue_data.append(item)`, save. -/
def put (acquired : Bool) (item : α) (b : Blob α) :
    Except QueueError Unit × Blob α :=
  if acquired then
    match load_queue b with
    | .error e => (.error e, b)
    | .ok queue_data => (.ok (), save_queue (queue_data ++ [item]))
  else (.error .lockTimeout, b)

/-- `Queue.put_batch`: load, `queue_data.extend(items)`, save. -/
def put_batch (acquired : Bool) (items : List α) (b : Blob α) :
    Except QueueError Unit × Blob α :=
  if acquired then
    match load_queue b with
    | .error e => (.error e, b)
    | .ok queue_data => (.ok (), save_queue (queue_data ++ items))
  else (.error .lockTimeout, b)

/-- The effective index of Python `list.pop(position)`: a negative
position indexes from the tail. -/
def popIndex (xs : List α) (position : Int) : Int :=
  if position < 0 then (xs.length : Int) + position else position

/-- Python `list.pop(position)`: remove and return the element at the
effective index; an effective index outside `[0, len)` raises
`IndexError` (`none`). -/
def popAt (xs : List α) (position : Int) : Option (α × List α) :=
  if 0 ≤ popIndex xs position ∧ popIndex xs position < (xs.length : Int) then
    (xs[(popIndex xs position).toNat]?).map
      (fun item => (item, xs.take (popIndex xs position).toNat ++
        xs.drop ((popIndex xs position).toNat + 1)))
  else none

/-- `Queue.get`: load; raise `EmptyQueueError` on an empty list; otherwise
`queue_data.pop(position)` and save, re-raising `IndexError` (with no save)
when the position is invalid. -/
def get (acquired : Bool) (position : Int) (b : Blob α) :
    Except QueueError α × Blob α :=
  if acquired then
    match load_queue b with
    | .error e => (.error e, b)
    | .ok queue_data =>
      if queue_data.isEmpty then (.error .emptyQueue, b)
      else
        match popAt queue_data position with
        | some (item, rest) => (.ok item, save_queue rest)
        | none => (.error .indexOutOfRange, b)
  else (.error .lockTimeout, b)

/-- The `for _ in range(batch_size)` loop of `Queue.get_batch`:
pop the head into `items` up to `n` times, stopping early when the
queue runs out.  Returns the final `(items, queue_data)`. -/
def batchLoop : Nat → List α → List α → List α × List α
  | 0, queue_data, items => (items, queue_data)
  | n + 1, queue_data, items =>
    match queue_data with
    | [] => (items, [])
    | x :: rest => batchLoop n rest (items ++ [x])

/-- `Queue.get_batch`: load; raise `EmptyQueueError` on an empty list;
otherwise run the popping loop, save the remainder and return the
collected items. -/
def get_batch (acquired : Bool) (batch_size : Nat) (b : Blob α) :
    Except QueueError (List α) × Blob α :=
  if acquired then
    match load_queue b with
    | .error e => (.error e, b)
    | .ok queue_data =>
      if queue_data.isEmpty then (.error .emptyQueue, b)
      else
        let r := batchLoop batch_size queue_data []
        (.ok r.1, save_queue r.2)
  else (.error .lockTimeout, b)

/-- `Queue.get_all`: load the whole list, save an empty list, return it. -/
def get_all (acquired : Bool) (b : Blob α) :
    Except QueueError (List α) × Blob α :=
  if acquired then
    match load_queue b with
    | .error e => (.error e, b)
    | .ok items => (.ok items, save_queue [])
  else (.error .lockTimeout, b)

/-- `Queue.clear`: save an empty list unconditionally (no load). -/
def clear (acquired : Bool) (b : Blob α) :
    Except QueueError Unit × Blob α :=
  if acquired then (.ok (), save_queue [])
  else (.error .lockTimeout, b)

/-- `Queue.size`: load and return the length; nothing is written. -/
def size (acquired : Bool) (b : Blob α) :
    Except QueueError Nat × Blob α :=
  if acquired then
    match load_queue b with
    | .error e => (.error e, b)
    | .ok queue_data => (.ok queue_data.length, b)
  else (.error .lockTimeout, b)

/-- `Queue.delete`: `queue_file.unlink()` then `lock_file.unlink()`;
`unlink` on a missing queue file raises `FileNotFoundError` (the lock file
exists while the lock is held, so its removal succeeds). -/
def delete (acquired : Bool) (b : Blob α) :
    Except QueueError Unit × Blob α :=
  if acquired then
    match b with
    | .missing => (.error .resourceRemovalFailure, b)
    | _ => (.ok (), Blob.missing)
  else (.error .lockTimeout, b)

/-- One insertion call: `put item` or `put_batch items`. -/
inductive PutOp (α : Type) where
  | single : α → PutOp α
  | batch : List α → PutOp α
deriving DecidableEq, Repr

/-- Run a list of successful insertion calls against the blob. -/
def runPuts : List (PutOp α) → Blob α → Blob α
  | [], b => b
  | PutOp.single a :: ops, b => runPuts ops (put true a b).2
  | PutOp.batch l :: ops, b => runPuts ops (put_batch true l b).2

/-- The items a list of insertion calls inserts, in insertion order. -/
def insertedItems : List (PutOp α) → List α
  | [] => []
  | PutOp.single a :: ops => a :: insertedItems ops
  | PutOp.batch l :: ops => l ++ insertedItems ops

/-- Running insertion calls against a well-formed blob appends the
inserted items, in order, to the persisted list. -/
theorem runPuts_data (ops : List (PutOp α)) (xs : List α) :
    runPuts ops (Blob.data xs) = Blob.data (xs ++ insertedItems ops) := by
  induction ops generalizing xs with
  | nil => simp [runPuts, insertedItems]
  | cons op ops ih =>
    cases op with
    | single a =>
      simp [runPuts, insertedItems, put, load_queue, pickleLoad, save_queue, ih]
    | batch l =>
      simp [runPuts, insertedItems, put_batch, load_queue, pickleLoad, save_queue, ih]

/-- The popping loop of `get_batch` takes the first `n` elements (in
order) and leaves the rest. -/
theorem batchLoop_eq (n : Nat) (xs acc : List α) :
    batchLoop n xs acc = (acc ++ xs.take n, xs.drop n) := by
  induction n generalizing xs acc with
  | zero => simp [batchLoop]
  | succ n ih =>
    cases xs with
    | nil => simp [batchLoop]
    | cons x rest => simp [batchLoop, ih]

/-- `list.pop` at a valid non-negative index. -/
theorem popAt_pos_valid (xs : List α) (p : Nat) (h : p < xs.length) :
    popAt xs (p : Int) = some (xs.get ⟨p, h⟩, xs.take p ++ xs.drop (p + 1)) := by
  have hi : popIndex xs (p : Int) = (p : Int) := by
    unfold popIndex
    rw [if_neg (by omega)]
  unfold popAt
  rw [hi, if_pos (by constructor <;> omega)]
  have ht : ((p : Int)).toNat = p := Int.toNat_natCast p
  rw [ht, List.getElem?_eq_getElem h]
  simp [List.get_eq_getElem]

/-- `list.pop` at a valid negative index pops at `len + position`. -/
theorem popAt_neg_valid (xs : List α) (p : Int)
    (h1 : -(xs.length : Int) ≤ p) (h2 : p < 0)
    (hn : ((xs.length : Int) + p).toNat < xs.length) :
    popAt xs p = some (xs.get ⟨((xs.length : Int) + p).toNat, hn⟩,
      xs.take ((xs.length : Int) + p).toNat ++
        xs.drop (((xs.length : Int) + p).toNat + 1)) := by
  have hi : popIndex xs p = (xs.length : Int) + p := by
    unfold popIndex
    rw [if_pos h2]
  unfold popAt
  rw [hi, if_pos (by constructor <;> omega)]
  rw [List.getElem?_eq_getElem hn]
  simp [List.get_eq_getElem]

/-- `list.pop` raises `IndexError` outside `[-len, len)`. -/
theorem popAt_invalid (xs : List α) (p : Int)
    (h : (xs.length : Int) ≤ p ∨ p < -(xs.length : Int)) : popAt xs p = none := by
  have hcond : ¬ (0 ≤ popIndex xs p ∧ popIndex xs p < (xs.length : Int)) := by
    unfold popIndex
    split <;> omega
  unfold popAt
  rw [if_neg hcond]

/-- `list.pop` succeeds on every index in `[-len, len)`. -/
theorem popAt_isSome (xs : List α) (q : Int)
    (h1 : -(xs.length : Int) ≤ q) (h2 : q < (xs.length : Int)) :
    (popAt xs q).isSome = true := by
  have hcond : 0 ≤ popIndex xs q ∧ popIndex xs q < (xs.length : Int) := by
    unfold popIndex
    split <;> omega
  have hn : (popIndex xs q).toNat < xs.length := by omega
  unfold popAt
  rw [if_pos hcond, List.getElem?_eq_getElem hn]
  rfl

/-- Claim C1, counterexample: on a blob containing garbage (undecodable,
non-EOF) content, `size()` does not return `0` — the decode exception
propagates, because `_load_queue` catches only `FileNotFoundError` and
`EOFError`. -/
theorem size_garbage_cex :
    (size true (Blob.garbage : Blob Nat)).1 = Except.error QueueError.decodeError ∧
      (size true (Blob.garbage : Blob Nat)).1 ≠ Except.ok 0 :=
  ⟨rfl, by decide⟩

/-- Claim C1 (amended): the forgiving-read policy covers exactly a
missing blob and a truncated/empty blob (`EOFError`): there the load step
yields the empty sequence and every operation proceeds (in particular
`size()` returns `0`); other malformed/undecodable content is not
tolerated and surfaces the decode error. -/
theorem load_tolerates_missing_truncated (b : Blob Nat) (item : Nat)
    (items : List Nat) (h : b = Blob.missing ∨ b = Blob.truncated) :
    load_queue b = Except.ok [] ∧
    size true b = (Except.ok 0, b) ∧
    put true item b = (Except.ok (), Blob.data [item]) ∧
    put_batch true items b = (Except.ok (), Blob.data items) ∧
    get_all true b = (Except.ok [], Blob.data []) ∧
    (get true 0 b).1 = Except.error QueueError.emptyQueue ∧
    (get_batch true 1 b).1 = Except.error QueueError.emptyQueue := by
  rcases h with h | h <;> subst h <;>
    exact ⟨rfl, rfl, rfl, rfl, rfl, rfl, rfl⟩

/-- Claim C1, witness: the amended theorem at the missing blob. -/
theorem load_tolerates_missing_truncated_witness :
    load_queue (Blob.missing : Blob Nat) = Except.ok [] ∧
      size true (Blob.missing : Blob Nat) = (Except.ok 0, Blob.missing) := by
  have h := load_tolerates_missing_truncated Blob.missing 7 [1, 2] (Or.inl rfl)
  exact ⟨h.1, h.2.1⟩

/-- Claim C2: starting from an empty queue, after any mix of `put` and
`put_batch` calls, `get_all` returns exactly the inserted items in
insertion order, and immediately afterwards the queue is empty
(`size() == 0`). -/
theorem put_getAll_roundtrip (ops : List (PutOp Nat)) :
    get_all true (runPuts ops (Blob.data [])) =
      (Except.ok (insertedItems ops), Blob.data []) ∧
    (size true (get_all true (runPuts ops (Blob.data []))).2).1 = Except.ok 0 := by
  rw [runPuts_data]
  exact ⟨rfl, rfl⟩

/-- Claim C3: on a non-empty persisted sequence, `get p` at a valid
non-negative position removes and returns the item at index `p` and
persists the remaining items in their original relative order; with the
default position `0` this is FIFO: after `put a; put b`, `get` returns
`a`, the next `get` returns `b`, and a third `get` raises
`EmptyQueueError`. -/
theorem get_positional_fifo (xs : List Nat) (p a b : Nat) (h : p < xs.length) :
    get true (p : Int) (Blob.data xs) =
      (Except.ok (xs.get ⟨p, h⟩), Blob.data (xs.take p ++ xs.drop (p + 1))) ∧
    get true 0 ((put true b ((put true a (Blob.data ([] : List Nat))).2)).2) =
      (Except.ok a, Blob.data [b]) ∧
    get true 0 (Blob.data [b]) = (Except.ok b, Blob.data []) ∧
    (get true 0 (Blob.data ([] : List Nat))).1 = Except.error QueueError.emptyQueue := by
  have hE : xs.isEmpty = false := by
    cases xs with
    | nil => simp at h
    | cons y ys => rfl
  refine ⟨?_, rfl, rfl, rfl⟩
  simp [get, load_queue, pickleLoad, hE, popAt_pos_valid xs p h, save_queue]

/-- Claim C3, witness: `get 1` on `[10, 20, 30]` returns `20` and leaves
`[10, 30]`. -/
theorem get_positional_fifo_witness :
    get true 1 (Blob.data [(10 : Nat), 20, 30]) =
      (Except.ok 20, Blob.data [10, 30]) :=
  (get_positional_fifo [10, 20, 30] 1 1 2 (by norm_num)).1

/-- Claim C4, counterexample: `get_batch 0` on the non-empty queue `[5]`
returns the empty list, so the returned count is `0`, not strictly
positive as the claim requires for every `n ≥ 0`. -/
theorem getBatch_zero_cex :
    get_batch true 0 (Blob.data [(5 : Nat)]) = (Except.ok [], Blob.data [5]) ∧
      ¬ 0 < (List.length ([] : List Nat)) :=
  ⟨rfl, by decide⟩

/-- Claim C4 (amended): on a queue that is non-empty at the start of the
call, `get_batch n` never fails for insufficient items: it removes and
returns the first `min n length` items from the head in order and
persists the remainder, so the returned count satisfies
`0 ≤ count ≤ n`, and it is strictly positive whenever `n ≥ 1`;
`get_batch` raises `EmptyQueueError` exactly when zero items were present
at the start. -/
theorem getBatch_clamps (xs : List Nat) (n : Nat) (h : xs ≠ []) :
    get_batch true n (Blob.data xs) =
      (Except.ok (xs.take n), Blob.data (xs.drop n)) ∧
    (xs.take n).length = min n xs.length ∧
    (xs.take n).length ≤ n ∧
    (1 ≤ n → 0 < (xs.take n).length) ∧
    get_batch true n (Blob.data ([] : List Nat)) =
      (Except.error QueueError.emptyQueue, Blob.data []) := by
  have hlen : 0 < xs.length := List.length_pos.mpr h
  have hE : xs.isEmpty = false := by
    cases xs with
    | nil => exact absurd rfl h
    | cons y ys => rfl
  refine ⟨?_, List.length_take n xs, ?_, ?_, rfl⟩
  · simp [get_batch, load_queue, pickleLoad, hE, batchLoop_eq, save_queue]
  · simp [List.length_take]
  · intro hn
    simp only [List.length_take]
    omega

/-- Claim C4, witness: `get_batch 5` on `[1, 2]` returns both items and
leaves the queue empty; `get_batch 1` on the empty queue raises
`EmptyQueueError`. -/
theorem getBatch_clamps_witness :
    get_batch true 5 (Blob.data [(1 : Nat), 2]) = (Except.ok [1, 2], Blob.data []) ∧
      get_batch true 5 (Blob.data ([] : List Nat)) =
        (Except.error QueueError.emptyQueue, Blob.data []) := by
  have h := getBatch_clamps [1, 2] 5 (by decide)
  exact ⟨h.1, h.2.2.2.2⟩

/-- Claim C5: when lock acquisition fails with a timeout, every operation
fails with the lock-timeout error — a kind distinct from the empty-queue,
index-out-of-range and resource-removal errors — and leaves the persisted
blob exactly as it was. -/
theorem lockTimeout_no_mutation (b : Blob Nat) (item : Nat) (items : List Nat)
    (p : Int) (n : Nat) :
    put false item b = (Except.error QueueError.lockTimeout, b) ∧
    put_batch false items b = (Except.error QueueError.lockTimeout, b) ∧
    get false p b = (Except.error QueueError.lockTimeout, b) ∧
    get_batch false n b = (Except.error QueueError.lockTimeout, b) ∧
    get_all false b = (Except.error QueueError.lockTimeout, b) ∧
    clear false b = (Except.error QueueError.lockTimeout, b) ∧
    size false b = (Except.error QueueError.lockTimeout, b) ∧
    delete false b = (Except.error QueueError.lockTimeout, b) ∧
    QueueError.lockTimeout ≠ QueueError.emptyQueue ∧
    QueueError.lockTimeout ≠ QueueError.indexOutOfRange ∧
    QueueError.lockTimeout ≠ QueueError.resourceRemovalFailure :=
  ⟨rfl, rfl, rfl, rfl, rfl, rfl, rfl, rfl, by decide, by decide, by decide⟩

/-- Claim C6: `get` and `get_batch` on a persisted sequence with zero
elements raise `EmptyQueueError` — for `get` at every position, so the
emptiness check takes precedence over the position check — and leave the
persisted state unchanged; the same holds when the zero-element state
comes from a missing or truncated blob; the error kind is distinct from
the lock-timeout and index-out-of-range kinds. -/
theorem empty_get_raises (p : Int) (n : Nat) :
    get true p (Blob.data ([] : List Nat)) =
      (Except.error QueueError.emptyQueue, Blob.data []) ∧
    get_batch true n (Blob.data ([] : List Nat)) =
      (Except.error QueueError.emptyQueue, Blob.data []) ∧
    get true p (Blob.missing : Blob Nat) =
      (Except.error QueueError.emptyQueue, Blob.missing) ∧
    get_batch true n (Blob.truncated : Blob Nat) =
      (Except.error QueueError.emptyQueue, Blob.truncated) ∧
    QueueError.emptyQueue ≠ QueueError.lockTimeout ∧
    QueueError.emptyQueue ≠ QueueError.indexOutOfRange :=
  ⟨rfl, rfl, rfl, rfl, by decide, by decide⟩

/-- Claim C7: on a non-empty persisted sequence, `get p` at a position
outside `[-len, len)` raises the index-out-of-range error (distinct from
the empty-queue error) and leaves the persisted sequence exactly as it
was, so `size()` afterwards is unchanged. -/
theorem get_out_of_range (xs : List Nat) (p : Int) (hne : xs ≠ [])
    (hout : (xs.length : Int) ≤ p ∨ p < -(xs.length : Int)) :
    get true p (Blob.data xs) =
      (Except.error QueueError.indexOutOfRange, Blob.data xs) ∧
    (size true (get true p (Blob.data xs)).2).1 = Except.ok xs.length ∧
    QueueError.indexOutOfRange ≠ QueueError.emptyQueue := by
  have hE : xs.isEmpty = false := by
    cases xs with
    | nil => exact absurd rfl hne
    | cons y ys => rfl
  have hpop : popAt xs p = none := popAt_invalid xs p hout
  have hmain : get true p (Blob.data xs) =
      (Except.error QueueError.indexOutOfRange, Blob.data xs) := by
    simp [get, load_queue, pickleLoad, hE, hpop]
  refine ⟨hmain, ?_, by decide⟩
  rw [hmain]
  rfl

/-- Claim C7, witness: on a queue of size 2, `get 5` raises the
index-out-of-range error and `size()` is still 2 afterwards. -/
theorem get_out_of_range_witness :
    get true 5 (Blob.data [(1 : Nat), 2]) =
      (Except.error QueueError.indexOutOfRange, Blob.data [1, 2]) ∧
    (size true (get true 5 (Blob.data [(1 : Nat), 2])).2).1 = Except.ok 2 := by
  have h := get_out_of_range [1, 2] 5 (by decide) (Or.inl (by norm_num))
  exact ⟨h.1, h.2.1⟩

/-- Claim C8: construction persists an empty sequence when no blob exists
at the location, and whenever a blob exists at the re-check under the
lock (including one created concurrently after the unlocked check),
construction leaves the persisted state unchanged — it never overwrites
existing queue contents. -/
theorem create_queue_preserves (outer inner : Blob Nat)
    (h : file_exists inner = true) :
    create_queue outer inner = inner ∧
    create_queue (Blob.missing : Blob Nat) Blob.missing = Blob.data [] := by
  refine ⟨?_, rfl⟩
  unfold create_queue
  split <;> simp [h]

/-- Claim C8, witness: a blob created concurrently between the unlocked
check and the locked re-check is preserved. -/
theorem create_queue_preserves_witness :
    create_queue (Blob.missing : Blob Nat) (Blob.data [7]) = Blob.data [7] :=
  (create_queue_preserves Blob.missing (Blob.data [7]) rfl).1

/-- Claim C9: `clear` (with the lock acquired) succeeds on every blob
state, leaving the persisted sequence empty so that `size()` returns `0`
afterwards, and it is idempotent: a second `clear` succeeds and yields
the same outcome and state as the first. -/
theorem clear_idempotent (b : Blob Nat) :
    clear true b = (Except.ok (), Blob.data []) ∧
    (size true (clear true b).2).1 = Except.ok 0 ∧
    clear true (clear true b).2 = clear true b :=
  ⟨rfl, rfl, rfl⟩

/-- Claim C10: `get` accepts negative positions, indexing from the tail:
for a sequence of length `L ≥ 1` and `-L ≤ p < 0`, `get p` removes and
returns the item at index `L + p` (so `get (-1)` returns the last item)
rather than raising; the index-out-of-range error is raised only when
`p ≥ L` or `p < -L`. -/
theorem get_negative_position (xs : List Nat) (p : Int)
    (h1 : -(xs.length : Int) ≤ p) (h2 : p < 0) :
    get true p (Blob.data xs) =
      (Except.ok (xs.get ⟨((xs.length : Int) + p).toNat, by omega⟩),
        Blob.data (xs.take ((xs.length : Int) + p).toNat ++
          xs.drop (((xs.length : Int) + p).toNat + 1))) ∧
    (∀ q : Int, (get true q (Blob.data xs)).1 = Except.error QueueError.indexOutOfRange →
      (xs.length : Int) ≤ q ∨ q < -(xs.length : Int)) := by
  have hlen : 0 < xs.length := by omega
  have hE : xs.isEmpty = false := by
    cases xs with
    | nil => simp at hlen
    | cons y ys => rfl
  have hn : ((xs.length : Int) + p).toNat < xs.length := by omega
  constructor
  · simp [get, load_queue, pickleLoad, hE, popAt_neg_valid xs p h1 h2 hn, save_queue]
  · intro q hq
    by_contra hcon
    push_neg at hcon
    have hs := popAt_isSome xs q hcon.2 hcon.1
    obtain ⟨⟨x, rest⟩, hsome⟩ := Option.isSome_iff_exists.mp hs
    rw [show (get true q (Blob.data xs)) =
        (Except.ok x, save_queue rest) by
      simp [get, load_queue, pickleLoad, hE, hsome]] at hq
    exact Except.noConfusion hq

/-- Claim C10, witness: `get (-1)` on `[10, 20, 30]` returns the last
item `30` and leaves `[10, 20]`. -/
theorem get_negative_position_witness :
    get true (-1) (Blob.data [(10 : Nat), 20, 30]) =
      (Except.ok 30, Blob.data [10, 20]) := by
  have h := (get_negative_position [10, 20, 30] (-1) (by norm_num) (by norm_num)).1
  simpa using h

end PickleQueue
